import Mathlib

/-!
Verification of the word-to-ieee-converter engine specification.

The development shallowly embeds the document-transformation engine:
text utilities, the line/whitespace normalizer, the paragraph classifier,
the code-block segmenter, the fixed style table, the layout configurator,
and the MCP service wrapper (`convertDocument`, `validateDocument`,
`addCodeMarkers`).  Definitions marked `Modelled from the spec:` embed
engine routines that live in `word_to_ieee.py`, which is not part of the
source tree; everything else is translated from the TypeScript sources.
-/

namespace WordToIEEE

/-! ## Text utilities -/

/-- Characters of a run text, trimmed of surrounding whitespace
(mirrors Python `str.strip` used on marker and heading checks). -/
def trim (s : List Char) : List Char :=
  ((s.dropWhile Char.isWhitespace).reverse.dropWhile Char.isWhitespace).reverse

/-- Lower-case every character (mirrors Python `str.lower`). -/
def toLowerList (s : List Char) : List Char := s.map Char.toLower

/-- Trim then lower-case: the normalized form used for case-insensitive matches. -/
def normText (s : List Char) : List Char := toLowerList (trim s)

/-- Boolean prefix test: does `s` start with `pre`? -/
def leadsWith (pre s : List Char) : Bool := decide (s.take pre.length = pre)

/-- Boolean substring test (mirrors JavaScript `String.includes`). -/
def containsSeq (pat : List Char) : List Char → Bool
  | [] => leadsWith pat []
  | c :: rest => leadsWith pat (c :: rest) || containsSeq pat rest

/-! ## Line/Whitespace Normalizer -/

/-- Modelled from the spec: `_split_code_paragraph_by_lines` in
`word_to_ieee.py` (not in the source tree) splits a run text at literal
newline characters into segments, one per line, keeping empty segments
for consecutive newlines. -/
def splitByNewlines : List Char → List (List Char)
  | [] => [[]]
  | c :: cs =>
    if c = '\n' then [] :: splitByNewlines cs
    else
      match splitByNewlines cs with
      | [] => [[c]]
      | s :: ss => (c :: s) :: ss

/-- Concatenate segments with a single newline between consecutive segments. -/
def joinWithNewlines : List (List Char) → List Char
  | [] => []
  | [s] => s
  | s :: s₂ :: ss => s ++ '\n' :: joinWithNewlines (s₂ :: ss)

/-- A node of a normalized run: either a text segment carrying the
`xml:space="preserve"` flag, or an explicit `w:br` line-break node. -/
inductive RunNode where
  | text (content : List Char) (preserveSpace : Bool)
  | lineBreak
deriving DecidableEq, Repr

/-- Modelled from the spec: emit each segment as a preserved-whitespace text
node and insert exactly one line-break node between consecutive segments. -/
def withBreaks : List (List Char) → List RunNode
  | [] => []
  | [s] => [RunNode.text s true]
  | s :: s₂ :: ss => RunNode.text s true :: RunNode.lineBreak :: withBreaks (s₂ :: ss)

/-- Modelled from the spec: the line/whitespace normalizer applied to one run text. -/
def normalizeRun (cs : List Char) : List RunNode := withBreaks (splitByNewlines cs)

/-- The text segments of a normalized run, in order. -/
def textSegments (ns : List RunNode) : List (List Char) :=
  ns.filterMap fun n =>
    match n with
    | RunNode.text s _ => some s
    | RunNode.lineBreak => none

/-- The number of explicit line-break nodes of a normalized run. -/
def breakCount (ns : List RunNode) : Nat :=
  ns.countP fun n =>
    match n with
    | RunNode.lineBreak => true
    | _ => false

theorem splitByNewlines_ne_nil (cs : List Char) : splitByNewlines cs ≠ [] := by
  induction cs with
  | nil => simp [splitByNewlines]
  | cons c cs ih =>
    by_cases h : c = '\n'
    · simp [splitByNewlines, h]
    · cases hs : splitByNewlines cs with
      | nil => exact absurd hs ih
      | cons s ss => simp [splitByNewlines, h, hs]

theorem length_splitByNewlines (cs : List Char) :
    (splitByNewlines cs).length = cs.count '\n' + 1 := by
  induction cs with
  | nil => simp [splitByNewlines]
  | cons c cs ih =>
    by_cases h : c = '\n'
    · subst h
      simp [splitByNewlines, List.count_cons, ih]
    · cases hs : splitByNewlines cs with
      | nil => exact absurd hs (splitByNewlines_ne_nil cs)
      | cons s ss =>
        rw [hs] at ih
        simp only [splitByNewlines, if_neg h, hs]
        simp [List.count_cons, h, ← ih]

theorem join_splitByNewlines (cs : List Char) :
    joinWithNewlines (splitByNewlines cs) = cs := by
  induction cs with
  | nil => rfl
  | cons c cs ih =>
    by_cases h : c = '\n'
    · subst h
      cases hs : splitByNewlines cs with
      | nil => exact absurd hs (splitByNewlines_ne_nil cs)
      | cons s ss =>
        rw [hs] at ih
        simp only [splitByNewlines, if_pos rfl, hs, joinWithNewlines]
        simpa using ih
    · cases hs : splitByNewlines cs with
      | nil => exact absurd hs (splitByNewlines_ne_nil cs)
      | cons s ss =>
        rw [hs] at ih
        simp only [splitByNewlines, if_neg h, hs]
        cases ss with
        | nil => simp [joinWithNewlines] at ih ⊢; simp [ih]
        | cons s₂ ss₂ => simp [joinWithNewlines] at ih ⊢; simp [ih]

theorem textSegments_withBreaks (L : List (List Char)) :
    textSegments (withBreaks L) = L := by
  induction L with
  | nil => rfl
  | cons s ss ih =>
    cases ss with
    | nil => rfl
    | cons s₂ ss₂ => simp [withBreaks, textSegments] at ih ⊢; exact ih

theorem breakCount_withBreaks (L : List (List Char)) (h : L ≠ []) :
    breakCount (withBreaks L) = L.length - 1 := by
  induction L with
  | nil => exact absurd rfl h
  | cons s ss ih =>
    cases ss with
    | nil => rfl
    | cons s₂ ss₂ =>
      have := ih (by simp)
      simp [withBreaks, breakCount] at this ⊢
      omega

/-- C1: for a run text with k literal newline characters, the normalizer
produces exactly k+1 text segments (empty segments included) and exactly
k explicit line-break nodes, and concatenating the segments with a single
newline between consecutive segments reproduces the original text. -/
theorem normalizeRun_roundTrip (cs : List Char) :
    (textSegments (normalizeRun cs)).length = cs.count '\n' + 1
    ∧ breakCount (normalizeRun cs) = cs.count '\n'
    ∧ joinWithNewlines (textSegments (normalizeRun cs)) = cs := by
  refine ⟨?_, ?_, ?_⟩
  · rw [normalizeRun, textSegments_withBreaks, length_splitByNewlines]
  · rw [normalizeRun, breakCount_withBreaks _ (splitByNewlines_ne_nil cs),
      length_splitByNewlines]
    omega
  · rw [normalizeRun, textSegments_withBreaks, join_splitByNewlines]

/-! ## Roles, markers and the paragraph classifier -/

/-- Structural role of a paragraph (spec data model). -/
inductive Role where
  | Title
  | AuthorLine
  | AbstractHeading
  | AbstractBody
  | SectionHeading
  | SubsectionHeading
  | Body
  | FigureCaption
  | TableCaption
  | CodeCaption
  | Reference
  | Code
  | Marker
deriving DecidableEq, Repr

/-- The literal code-block start marker. -/
def startMarkerText : List Char := "<code block start>".toList

/-- The literal code-block end marker. -/
def endMarkerText : List Char := "<code block end>".toList

/-- Is this text, trimmed and lower-cased, the start marker? -/
def isStartText (s : List Char) : Bool := decide (normText s = startMarkerText)

/-- Is this text, trimmed and lower-cased, the end marker? -/
def isEndText (s : List Char) : Bool := decide (normText s = endMarkerText)

/-- Is this text one of the two code markers? -/
def isMarkerText (s : List Char) : Bool := isStartText s || isEndText s

/-- Roman-numeral character, as used by section-heading detection. -/
def isRomanChar (c : Char) : Bool :=
  decide (c = 'I' ∨ c = 'V' ∨ c = 'X' ∨ c = 'L' ∨ c = 'C' ∨ c = 'D' ∨ c = 'M')

/-- Modelled from the spec: section-heading pattern — a leading Roman
numeral or leading digits followed by a period, e.g. "I." or "1.". -/
def sectionHeadingPattern (t : List Char) : Bool :=
  match t with
  | [] => false
  | c :: rest =>
    if c.isDigit then decide ((rest.dropWhile Char.isDigit).head? = some '.')
    else if isRomanChar c then decide (((c :: rest).dropWhile isRomanChar).head? = some '.')
    else false

/-- Modelled from the spec: subsection-heading pattern — a single capital
letter followed by a period, e.g. "A.". -/
def subsectionHeadingPattern (t : List Char) : Bool :=
  match t with
  | c :: '.' :: _ => c.isUpper
  | _ => false

/-- Modelled from the spec: reference pattern — "[" followed by one or
more digits and "]". -/
def referencePattern (t : List Char) : Bool :=
  match t with
  | '[' :: rest =>
    decide (rest.takeWhile Char.isDigit ≠ [] ∧ (rest.dropWhile Char.isDigit).head? = some ']')
  | _ => false

/-- Modelled from the spec: figure-caption pattern on the lower-cased text. -/
def figureCaptionPattern (low : List Char) : Bool :=
  leadsWith "figure".toList low || leadsWith "fig.".toList low

/-- Modelled from the spec: table-caption pattern on the lower-cased text. -/
def tableCaptionPattern (low : List Char) : Bool := leadsWith "table".toList low

/-- Modelled from the spec: abstract-start pattern — lower-cased text
starts with "abstract". -/
def abstractStartPattern (low : List Char) : Bool := leadsWith "abstract".toList low

/-- Phase of the classifier state machine. -/
inductive Phase where
  | BeforeTitle
  | InAuthorBlock
  | InAbstract
  | InBody
deriving DecidableEq, Repr

/-- Modelled from the spec: the in-body pattern cascade, first match wins —
section heading, subsection heading, figure caption, table caption,
reference, else body. -/
def inBodyRole (t low : List Char) : Role :=
  if sectionHeadingPattern t then Role.SectionHeading
  else if subsectionHeadingPattern t then Role.SubsectionHeading
  else if figureCaptionPattern low then Role.FigureCaption
  else if tableCaptionPattern low then Role.TableCaption
  else if referencePattern t then Role.Reference
  else Role.Body

/-- Modelled from the spec: classify one paragraph given the current phase,
returning its role and the next phase (`word_to_ieee.py` classifier, not in
the source tree).  Marker texts are recognized first; unmatched paragraphs
default to `Body` and classification never errors. -/
def classifyPara (ph : Phase) (text : List Char) : Role × Phase :=
  let t := trim text
  let low := toLowerList t
  if isMarkerText text then (Role.Marker, ph)
  else
    match ph with
    | Phase.BeforeTitle =>
      if decide (t ≠ []) && !abstractStartPattern low then (Role.Title, Phase.InAuthorBlock)
      else (Role.Body, Phase.BeforeTitle)
    | Phase.InAuthorBlock =>
      if abstractStartPattern low then (Role.AbstractHeading, Phase.InAbstract)
      else (Role.AuthorLine, Phase.InAuthorBlock)
    | Phase.InAbstract =>
      if sectionHeadingPattern t then (Role.SectionHeading, Phase.InBody)
      else (Role.AbstractBody, Phase.InAbstract)
    | Phase.InBody => (inBodyRole t low, Phase.InBody)

/-- Classify every paragraph of a document in order, threading the phase. -/
def classifyAll : Phase → List (List Char) → List Role
  | _, [] => []
  | ph, t :: ts =>
    let rp := classifyPara ph t
    rp.1 :: classifyAll rp.2 ts

/-- C6: the classifier assigns the published roles on the four published
inputs — "Abstract—This paper studies X." is an AbstractHeading by
case-insensitive prefix match on "abstract"; "I. INTRODUCTION" is a
SectionHeading; "A. Motivation" is a SubsectionHeading; and
"[1] J. Smith, et al." is a Reference, per the ordered first-match-wins
pattern rules. -/
theorem classifier_examples :
    (classifyPara Phase.InAuthorBlock "Abstract—This paper studies X.".toList).1
      = Role.AbstractHeading
    ∧ (classifyPara Phase.InBody "I. INTRODUCTION".toList).1 = Role.SectionHeading
    ∧ (classifyPara Phase.InBody "A. Motivation".toList).1 = Role.SubsectionHeading
    ∧ (classifyPara Phase.InBody "[1] J. Smith, et al.".toList).1 = Role.Reference := by
  refine ⟨?_, ?_, ?_, ?_⟩ <;> decide

/-! ## The fixed style table and page constants (src constants.ts) -/

/-- A font entry of `IEEE_FONTS`: family, point size, bold flag
(the `[string, number, boolean]` tuples of `constants.ts`). -/
structure FontSpec where
  family : String
  size : Nat
  bold : Bool
deriving DecidableEq, Repr

/-- Shape of the `IEEE_FONTS` table (`types.ts`). -/
structure IEEEFonts where
  title : FontSpec
  author : FontSpec
  abstract_heading : FontSpec
  abstract_body : FontSpec
  section_heading : FontSpec
  subsection_heading : FontSpec
  body : FontSpec
  code_block : FontSpec
  code_caption : FontSpec
  figure_caption : FontSpec
  references : FontSpec
deriving DecidableEq, Repr

/-- The fixed font table of `constants.ts`. -/
def IEEE_FONTS : IEEEFonts :=
  { title := ⟨"Times New Roman", 24, true⟩
    author := ⟨"Times New Roman", 10, false⟩
    abstract_heading := ⟨"Times New Roman", 10, true⟩
    abstract_body := ⟨"Times New Roman", 10, false⟩
    section_heading := ⟨"Times New Roman", 10, true⟩
    subsection_heading := ⟨"Times New Roman", 10, true⟩
    body := ⟨"Times New Roman", 10, false⟩
    code_block := ⟨"Courier New", 9, false⟩
    code_caption := ⟨"Times New Roman", 9, false⟩
    figure_caption := ⟨"Times New Roman", 9, false⟩
    references := ⟨"Times New Roman", 9, false⟩ }

/-- Shape of the `IEEE_MARGINS` record (`types.ts`); values in inches. -/
structure IEEEMargins where
  top : ℚ
  bottom : ℚ
  left : ℚ
  right : ℚ
deriving DecidableEq, Repr

/-- The fixed page margins of `constants.ts`. -/
def IEEE_MARGINS : IEEEMargins :=
  { top := 0.75, bottom := 1.0, left := 0.625, right := 0.625 }

/-- Paragraph alignment. -/
inductive Align where
  | left
  | center
  | right
  | justify
deriving DecidableEq, Repr

/-- A style rule: the formatting attributes the applier writes onto a
paragraph of a given role (spec data model; lengths in inches, spacing in
points, line spacing as a multiplier). -/
structure Style where
  fontFamily : String
  size : Nat
  bold : Bool
  italic : Bool
  alignment : Align
  firstLineIndent : ℚ
  leftIndent : ℚ
  rightIndent : ℚ
  spaceBefore : ℚ
  spaceAfter : ℚ
  lineSpacing : ℚ
  hasBorder : Bool
  hasShading : Bool
deriving DecidableEq, Repr

/-- The `IEEE_FONTS` entry charged with a role (table and figure captions
share the figure-caption entry; markers never reach the applier and are
charged the body entry). -/
def fontFor : Role → FontSpec
  | Role.Title => IEEE_FONTS.title
  | Role.AuthorLine => IEEE_FONTS.author
  | Role.AbstractHeading => IEEE_FONTS.abstract_heading
  | Role.AbstractBody => IEEE_FONTS.abstract_body
  | Role.SectionHeading => IEEE_FONTS.section_heading
  | Role.SubsectionHeading => IEEE_FONTS.subsection_heading
  | Role.Body => IEEE_FONTS.body
  | Role.FigureCaption => IEEE_FONTS.figure_caption
  | Role.TableCaption => IEEE_FONTS.figure_caption
  | Role.CodeCaption => IEEE_FONTS.code_caption
  | Role.Reference => IEEE_FONTS.references
  | Role.Code => IEEE_FONTS.code_block
  | Role.Marker => IEEE_FONTS.body

/-- Default attributes of a style entry before role-specific adjustments:
single line spacing, left alignment, no indents, no box. -/
def baseStyle (r : Role) : Style :=
  { fontFamily := (fontFor r).family
    size := (fontFor r).size
    bold := (fontFor r).bold
    italic := false
    alignment := Align.left
    firstLineIndent := 0
    leftIndent := 0
    rightIndent := 0
    spaceBefore := 0
    spaceAfter := 0
    lineSpacing := 1
    hasBorder := false
    hasShading := false }

/-- Modelled from the spec: the fixed style table keyed by role
(`word_to_ieee.py` formatting applier, not in the source tree) — fonts
from `IEEE_FONTS`, alignment and indents per the formatting guide, code
paragraphs boxed and shaded with 0.25in side indents, single line spacing
for every role. -/
def styleFor : Role → Style
  | Role.Title => { baseStyle Role.Title with alignment := Align.center }
  | Role.AuthorLine => baseStyle Role.AuthorLine
  | Role.AbstractHeading => { baseStyle Role.AbstractHeading with italic := true }
  | Role.AbstractBody => { baseStyle Role.AbstractBody with alignment := Align.justify }
  | Role.SectionHeading =>
      { baseStyle Role.SectionHeading with spaceBefore := 6, spaceAfter := 6 }
  | Role.SubsectionHeading =>
      { baseStyle Role.SubsectionHeading with italic := true, spaceBefore := 6, spaceAfter := 6 }
  | Role.Body => { baseStyle Role.Body with alignment := Align.justify, firstLineIndent := 0.3 }
  | Role.FigureCaption =>
      { baseStyle Role.FigureCaption with italic := true, alignment := Align.center }
  | Role.TableCaption =>
      { baseStyle Role.TableCaption with italic := true, alignment := Align.center }
  | Role.CodeCaption => baseStyle Role.CodeCaption
  | Role.Reference => { baseStyle Role.Reference with firstLineIndent := -0.25 }
  | Role.Code =>
      { baseStyle Role.Code with
          leftIndent := 0.25, rightIndent := 0.25, hasBorder := true, hasShading := true }
  | Role.Marker => baseStyle Role.Marker

/-- C7: the style table holds the published constants — Title is 24pt bold,
Body is 10pt, Code is 9pt Courier New (monospace) — and the line-spacing
multiplier is 1.0 for every role; `IEEE_FONTS` is a fixed configuration
value, not derived from any input. -/
theorem style_table_constants :
    IEEE_FONTS.title = ⟨"Times New Roman", 24, true⟩
    ∧ IEEE_FONTS.body = ⟨"Times New Roman", 10, false⟩
    ∧ IEEE_FONTS.code_block = ⟨"Courier New", 9, false⟩
    ∧ ∀ r : Role, (styleFor r).lineSpacing = 1 := by
  refine ⟨rfl, rfl, rfl, ?_⟩
  intro r
  cases r <;> rfl

/-! ## Paragraph model, code block segmenter and the conversion pipeline -/

/-- A paragraph of the in-memory document model: raw text, role tag,
applied style, and the normalized run nodes. -/
structure Para where
  text : List Char
  role : Role
  style : Style
  nodes : List RunNode
deriving DecidableEq, Repr

/-- The style a paragraph carries before the formatting pass. -/
def defaultStyle : Style := baseStyle Role.Body

/-- A fresh paragraph with the given text and role. -/
def mkPara (t : List Char) (r : Role) : Para :=
  { text := t, role := r, style := defaultStyle, nodes := [] }

/-- Force a paragraph into the Code role, overriding its classification. -/
def setCode (p : Para) : Para := { p with role := Role.Code }

/-- Modelled from the spec: the code block segmenter — scan paragraphs in
order with an `inCode` flag; a start marker while closed opens a group and
is dropped, an end marker while open closes the group and is dropped, and
every paragraph strictly between is forced into the Code role
(`word_to_ieee.py` `_format_paragraphs`, not in the source tree). -/
def segment : Bool → List Para → List Para
  | _, [] => []
  | false, p :: ps =>
    if isStartText p.text then segment true ps
    else p :: segment false ps
  | true, p :: ps =>
    if isEndText p.text then segment false ps
    else setCode p :: segment true ps

/-- One item of a balanced document: either an ordinary paragraph, or a
balanced marker pair enclosing its contents. -/
inductive DocItem where
  | plain (p : Para)
  | block (ps : List Para)

/-- Render an item back to the flat paragraph sequence: a block becomes a
start-marker paragraph, its contents, and an end-marker paragraph. -/
def renderItem : DocItem → List Para
  | DocItem.plain p => [p]
  | DocItem.block ps => mkPara startMarkerText Role.Marker :: (ps ++ [mkPara endMarkerText Role.Marker])

/-- Flatten a balanced document to its paragraph sequence. -/
def renderDoc : List DocItem → List Para
  | [] => []
  | i :: items => renderItem i ++ renderDoc items

/-- An item is good when none of its non-marker paragraphs is itself a
marker (nested markers are undefined behavior in the spec). -/
def goodItem : DocItem → Bool
  | DocItem.plain p => !isMarkerText p.text
  | DocItem.block ps => ps.all fun p => !isMarkerText p.text

/-- Number of balanced marker pairs of the document. -/
def pairCount (items : List DocItem) : Nat :=
  items.countP fun i =>
    match i with
    | DocItem.block _ => true
    | _ => false

/-- The paragraphs an item contributes to the segmenter output: a plain
paragraph survives unchanged, block contents survive with Role=Code, and
the two marker paragraphs are gone. -/
def outItem : DocItem → List Para
  | DocItem.plain p => [p]
  | DocItem.block ps => ps.map setCode

/-- The full segmenter output of a balanced document, item by item. -/
def outDoc : List DocItem → List Para
  | [] => []
  | i :: items => outItem i ++ outDoc items

theorem isStartText_startMarkerText : isStartText startMarkerText = true := by decide

theorem isEndText_endMarkerText : isEndText endMarkerText = true := by decide

theorem segment_block (ps rest : List Para)
    (h : ps.all (fun p => !isMarkerText p.text) = true) :
    segment true (ps ++ mkPara endMarkerText Role.Marker :: rest)
      = ps.map setCode ++ segment false rest := by
  induction ps with
  | nil => simp [segment, mkPara, isEndText_endMarkerText]
  | cons p ps ih =>
    simp only [List.all_cons, Bool.and_eq_true] at h
    have hp : isEndText p.text = false := by
      have := h.1
      simp [isMarkerText] at this
      exact this.2
    simp [segment, hp, ih h.2]

theorem segment_renderDoc (items : List DocItem) (h : items.all goodItem = true) :
    segment false (renderDoc items) = outDoc items := by
  induction items with
  | nil => rfl
  | cons i items ih =>
    simp only [List.all_cons, Bool.and_eq_true] at h
    have ihr := ih h.2
    cases i with
    | plain p =>
      have hp : isStartText p.text = false := by
        have := h.1
        simp [goodItem, isMarkerText] at this
        exact this.1
      simp [renderDoc, renderItem, outDoc, outItem, segment, hp, ihr]
    | block ps =>
      simp only [renderDoc, renderItem, outDoc, outItem, List.cons_append]
      rw [show segment false (mkPara startMarkerText Role.Marker ::
              ((ps ++ [mkPara endMarkerText Role.Marker]) ++ renderDoc items))
            = segment true ((ps ++ [mkPara endMarkerText Role.Marker]) ++ renderDoc items) by
          simp [segment, mkPara, isStartText_startMarkerText]]
      rw [List.append_assoc, List.singleton_append,
        segment_block ps _ (by simpa [goodItem] using h.1), ihr]

theorem renderDoc_length (items : List DocItem) :
    (renderDoc items).length = (outDoc items).length + 2 * pairCount items := by
  induction items with
  | nil => rfl
  | cons i items ih =>
    cases i with
    | plain p =>
      simp [renderDoc, renderItem, outDoc, outItem, pairCount, List.countP_cons] at ih ⊢
      omega
    | block ps =>
      simp [renderDoc, renderItem, outDoc, outItem, pairCount, List.countP_cons] at ih ⊢
      omega

theorem outDoc_no_marker (items : List DocItem) (h : items.all goodItem = true) :
    ∀ p ∈ outDoc items, isMarkerText p.text = false := by
  induction items with
  | nil => simp [outDoc]
  | cons i items ih =>
    simp only [List.all_cons, Bool.and_eq_true] at h
    intro p hp
    simp only [outDoc, List.mem_append] at hp
    rcases hp with hp | hp
    · cases i with
      | plain q =>
        simp only [outItem, List.mem_singleton] at hp
        subst hp
        simpa [goodItem] using h.1
      | block ps =>
        simp only [outItem, List.mem_map] at hp
        obtain ⟨q, hq, rfl⟩ := hp
        have hall : ps.all (fun r => !isMarkerText r.text) = true := by
          simpa [goodItem] using h.1
        have := List.all_eq_true.mp hall q hq
        simpa [setCode] using this
    · exact ih h.2 p hp

/-- C2: for a balanced document with N marker pairs, the segmenter output
is exactly the input with both marker paragraphs of every pair removed and
every paragraph strictly between a pair reassigned Role=Code; in
particular the output paragraph count is the input count minus 2N, and no
marker paragraph survives into the output. -/
theorem segmenter_balanced (items : List DocItem) (h : items.all goodItem = true) :
    segment false (renderDoc items) = outDoc items
    ∧ (segment false (renderDoc items)).length = (renderDoc items).length - 2 * pairCount items
    ∧ ∀ p ∈ segment false (renderDoc items), isMarkerText p.text = false := by
  have hc := segment_renderDoc items h
  refine ⟨hc, ?_, ?_⟩
  · rw [hc, renderDoc_length items]
    omega
  · rw [hc]
    exact outDoc_no_marker items h

/-- A two-item demonstration document: one body paragraph and one balanced
code block holding a single code line. -/
def demoItems : List DocItem :=
  [DocItem.plain (mkPara "Intro text".toList Role.Body),
   DocItem.block [mkPara "x = 1".toList Role.Body]]

/-- Witness for `segmenter_balanced` at `demoItems`. -/
theorem segmenter_balanced_witness :
    demoItems.all goodItem = true
    ∧ (segment false (renderDoc demoItems) = outDoc demoItems
      ∧ (segment false (renderDoc demoItems)).length
          = (renderDoc demoItems).length - 2 * pairCount demoItems
      ∧ ∀ p ∈ segment false (renderDoc demoItems), isMarkerText p.text = false) :=
  ⟨by decide, segmenter_balanced demoItems (by decide)⟩

/-! ## Layout configurator and the five-pass pipeline -/

/-- A section's page setup: margins, column count and inter-column gap. -/
structure PageSetup where
  margins : IEEEMargins
  columns : Nat
  colGap : ℚ
deriving DecidableEq, Repr

/-- An input document: the raw paragraph texts and the existing page setup. -/
structure InputDoc where
  texts : List (List Char)
  setup : PageSetup
deriving DecidableEq

/-- An output document: transformed paragraphs and the rewritten page setup. -/
structure OutputDoc where
  paras : List Para
  setup : PageSetup
deriving DecidableEq

/-- Modelled from the spec: the fixed inter-column gap of the two-column
definition; the spec fixes the gap without publishing its magnitude, so the
value here is representative — the theorems use only that it is one
constant for every document. -/
def ieeeColumnGap : ℚ := 0.25

/-- Modelled from the spec: the layout configurator sets the four page
margins to `IEEE_MARGINS` unconditionally and, only when the two-column
flag is set, installs a two-column definition with the fixed gap
(`word_to_ieee.py`, not in the source tree). -/
def applyLayout (twoColumn : Bool) (ps : PageSetup) : PageSetup :=
  if twoColumn then
    { ps with margins := IEEE_MARGINS, columns := 2, colGap := ieeeColumnGap }
  else
    { ps with margins := IEEE_MARGINS }

/-- Modelled from the spec: the whole engine pipeline — classify every
paragraph, segment marker-delimited code blocks, apply the style table,
normalize embedded newlines, then configure the layout
(`word_to_ieee.py`, not in the source tree). -/
def convert (doc : InputDoc) (twoColumn : Bool) : OutputDoc :=
  let roles := classifyAll Phase.BeforeTitle doc.texts
  let paras := (doc.texts.zip roles).map fun tr => mkPara tr.1 tr.2
  let segmented := segment false paras
  let formatted := segmented.map fun p => { p with style := styleFor p.role }
  let normalized := formatted.map fun p => { p with nodes := normalizeRun p.text }
  { paras := normalized, setup := applyLayout twoColumn doc.setup }

/-- C3: whatever the input document's existing page setup, the output page
margins are exactly top 0.75in, bottom 1.0in, left 0.625in, right 0.625in —
the `IEEE_MARGINS` constants. -/
theorem margins_fixed (doc : InputDoc) (twoColumn : Bool) :
    (convert doc twoColumn).setup.margins = IEEE_MARGINS
    ∧ (convert doc twoColumn).setup.margins.top = 0.75
    ∧ (convert doc twoColumn).setup.margins.bottom = 1.0
    ∧ (convert doc twoColumn).setup.margins.left = 0.625
    ∧ (convert doc twoColumn).setup.margins.right = 0.625 := by
  cases twoColumn <;> exact ⟨rfl, rfl, rfl, rfl, rfl⟩

/-- C8: converting with the two-column flag set versus unset leaves every
paragraph — role, style, nodes — and the margins identical; the only
difference is the section column definition, which the flag sets to two
columns with the fixed gap and otherwise leaves as the input had it. -/
theorem twoColumn_frame (doc : InputDoc) :
    (convert doc true).paras = (convert doc false).paras
    ∧ (convert doc true).setup.margins = (convert doc false).setup.margins
    ∧ (convert doc true).setup.columns = 2
    ∧ (convert doc true).setup.colGap = ieeeColumnGap
    ∧ (convert doc false).setup.columns = doc.setup.columns
    ∧ (convert doc false).setup.colGap = doc.setup.colGap :=
  ⟨rfl, rfl, rfl, rfl, rfl, rfl⟩

/-! ## The converter service (src/mcp-server/src/services/converterService.ts) -/

/-- The structured conversion result of `types.ts`. -/
structure ConversionResult where
  success : Bool
  message : String
  outputBase64 : Option String
  errors : Option (List String)
deriving DecidableEq, Repr

/-- Captured output of the Python subprocess. -/
structure ExecOut where
  stdout : String
  stderr : String
deriving DecidableEq, Repr

/-- Outcome environment for one `convertDocument` call: how each fallible
boundary operation behaves — writing the temp input file, executing the
Python converter (which may leave an output file even on failure), and the
bytes of the output file when it exists. -/
structure ConvEnv where
  writeInput : Except String Unit
  exec : Except String ExecOut
  execWroteOutput : Bool
  outputContent : String

/-- Which of the two fresh temp files exist on disk. -/
structure FsState where
  inputExists : Bool
  outputExists : Bool
deriving DecidableEq, Repr

/-- `unlink(inputPath).catch(noop)` and `unlink(outputPath).catch(noop)`:
both temp files are gone afterwards and the operation never fails. -/
def unlinkBoth (_fs : FsState) : FsState := { inputExists := false, outputExists := false }

/-- Does the stderr text contain "Error" (JavaScript `stderr.includes`)? -/
def stderrHasError (s : String) : Bool := containsSeq "Error".toList s.toList

/-- The inner try/catch around `execFileAsync`: a rejected execution or a
stderr mentioning "Error" is rethrown as a "Conversion failed: " fault. -/
def execPhase (env : ConvEnv) : Except String ExecOut :=
  match env.exec with
  | Except.error e => Except.error ("Conversion failed: " ++ e)
  | Except.ok out =>
    if out.stderr ≠ "" ∧ stderrHasError out.stderr = true then
      Except.error ("Conversion failed: " ++ out.stderr)
    else Except.ok out

/-- The failure result built by the outer catch of `convertDocument`. -/
def mkFailureResult (e : String) : ConversionResult :=
  { success := false, message := "Conversion failed", outputBase64 := none, errors := some [e] }

/-- The success message of `convertDocument`. -/
def successMessage (twoColumn : Bool) : String :=
  "Document successfully converted to IEEE format" ++ (if twoColumn then " (two-column)" else "")

/-- Reading the temp output file: succeeds with its content exactly when
the file exists. -/
def readOutputFile (fs : FsState) (env : ConvEnv) : Except String String :=
  if fs.outputExists then Except.ok env.outputContent
  else Except.error "ENOENT: no such file or directory"

/-- The try-block of `convertDocument`: write the temp input, run the
Python converter, read and encode the output, clean up, and return the
success result; any fault escapes to the outer catch. -/
def serviceBody (env : ConvEnv) (twoColumn : Bool) : Except String (ConversionResult × FsState) :=
  match env.writeInput with
  | Except.error e => Except.error e
  | Except.ok _ =>
    match execPhase env with
    | Except.error e => Except.error e
    | Except.ok _ =>
      let fs2 : FsState := { inputExists := true, outputExists := env.execWroteOutput }
      match readOutputFile fs2 env with
      | Except.error e => Except.error e
      | Except.ok content =>
        Except.ok
          ({ success := true, message := successMessage twoColumn,
             outputBase64 := some content, errors := none }, unlinkBoth fs2)

/-- `convertDocument` of `converterService.ts`: the try-block wrapped in
the outer catch, which unlinks both temp files and returns the structured
failure result; an `Except.error` outcome would be an uncaught fault
crossing the service boundary. -/
def convertDocument (env : ConvEnv) (twoColumn : Bool) :
    Except String (ConversionResult × FsState) :=
  match serviceBody env twoColumn with
  | Except.ok r => Except.ok r
  | Except.error e =>
    Except.ok (mkFailureResult e, unlinkBoth { inputExists := true, outputExists := true })

/-- Modelled from the spec: the engine run by the subprocess surfaces an
unmatched start marker as an error without producing an output file
(`word_to_ieee.py`, not in the source tree; reference policy of §7). -/
def hasUnmatchedStart : Bool → List (List Char) → Bool
  | inCode, [] => inCode
  | false, t :: ts => if isStartText t then hasUnmatchedStart true ts else hasUnmatchedStart false ts
  | true, t :: ts => if isEndText t then hasUnmatchedStart false ts else hasUnmatchedStart true ts

/-- Modelled from the spec: the subprocess outcome for a document — an
unmatched start marker aborts with an error and no output file. -/
def engineExec (texts : List (List Char)) : Except String ExecOut :=
  if hasUnmatchedStart false texts then
    Except.error "Error: unmatched code block start marker"
  else Except.ok { stdout := "", stderr := "" }

/-- The call environment produced by running the engine on a document. -/
def envFor (texts : List (List Char)) (content : String) : ConvEnv :=
  { writeInput := Except.ok ()
    exec := engineExec texts
    execWroteOutput := !hasUnmatchedStart false texts
    outputContent := content }

theorem convertDocument_cases (env : ConvEnv) (twoColumn : Bool) :
    (∃ e, convertDocument env twoColumn
        = Except.ok (mkFailureResult e, { inputExists := false, outputExists := false }))
    ∨ (∃ content, convertDocument env twoColumn
        = Except.ok
            ({ success := true, message := successMessage twoColumn,
               outputBase64 := some content, errors := none },
             { inputExists := false, outputExists := false })) := by
  cases hw : env.writeInput with
  | error e =>
    exact Or.inl ⟨e, by simp [convertDocument, serviceBody, hw, unlinkBoth]⟩
  | ok u =>
    cases hx : execPhase env with
    | error e =>
      exact Or.inl ⟨e, by simp [convertDocument, serviceBody, hw, hx, unlinkBoth]⟩
    | ok out =>
      cases hr : readOutputFile { inputExists := true, outputExists := env.execWroteOutput } env with
      | error e =>
        exact Or.inl ⟨e, by simp [convertDocument, serviceBody, hw, hx, hr, unlinkBoth]⟩
      | ok content =>
        exact Or.inr ⟨content, by simp [convertDocument, serviceBody, hw, hx, hr, unlinkBoth]⟩

/-- C4: `convertDocument` never throws to the caller — every outcome of
every boundary operation yields `Except.ok` with a structured result: a
success flag, a non-empty human-readable message, an errors list exactly
when it failed, and output exactly when it succeeded. -/
theorem convertDocument_total (env : ConvEnv) (twoColumn : Bool) :
    ∃ res fs, convertDocument env twoColumn = Except.ok (res, fs)
    ∧ (res.success = true → res.outputBase64.isSome ∧ res.errors = none)
    ∧ (res.success = false → ∃ e, res.errors = some [e] ∧ res.outputBase64 = none)
    ∧ res.message ≠ "" := by
  rcases convertDocument_cases env twoColumn with ⟨e, he⟩ | ⟨content, hc⟩
  · refine ⟨mkFailureResult e, _, he, ?_, fun _ => ⟨e, rfl, rfl⟩, ?_⟩
    · intro hs; cases hs
    · simp [mkFailureResult]
  · refine ⟨_, _, hc, fun _ => ⟨rfl, rfl⟩, ?_, ?_⟩
    · intro hs; cases hs
    · cases twoColumn <;> simp [successMessage]

/-- Witness for `convertDocument_total` at a concrete environment. -/
theorem convertDocument_total_witness :
    ∃ res fs,
      convertDocument
        { writeInput := Except.ok (), exec := Except.ok { stdout := "", stderr := "" },
          execWroteOutput := true, outputContent := "UEsDBA==" } false = Except.ok (res, fs)
      ∧ (res.success = true → res.outputBase64.isSome ∧ res.errors = none)
      ∧ (res.success = false → ∃ e, res.errors = some [e] ∧ res.outputBase64 = none)
      ∧ res.message ≠ "" :=
  convertDocument_total
    { writeInput := Except.ok (), exec := Except.ok { stdout := "", stderr := "" },
      execWroteOutput := true, outputContent := "UEsDBA==" } false

/-- C5: the conversion is atomic — on every exit path both temp artifacts
are cleaned up, a failed call returns no output, and a document with a
start marker lacking its end marker is surfaced as a structured error with
no output written. -/
theorem convertDocument_atomic (env : ConvEnv) (twoColumn : Bool)
    (res : ConversionResult) (fs : FsState)
    (h : convertDocument env twoColumn = Except.ok (res, fs)) :
    fs = { inputExists := false, outputExists := false }
    ∧ (res.success = false → res.outputBase64 = none)
    ∧ (∀ texts content flag, hasUnmatchedStart false texts = true →
        ∃ e, convertDocument (envFor texts content) flag
          = Except.ok (mkFailureResult e, { inputExists := false, outputExists := false })
          ∧ (mkFailureResult e).success = false
          ∧ (mkFailureResult e).outputBase64 = none) := by
  refine ⟨?_, ?_, ?_⟩
  · rcases convertDocument_cases env twoColumn with ⟨e, he⟩ | ⟨content, hc⟩
    · have := he.symm.trans h
      simp only [Except.ok.injEq, Prod.mk.injEq] at this
      exact this.2.symm
    · have := hc.symm.trans h
      simp only [Except.ok.injEq, Prod.mk.injEq] at this
      exact this.2.symm
  · rcases convertDocument_cases env twoColumn with ⟨e, he⟩ | ⟨content, hc⟩
    · have := he.symm.trans h
      simp only [Except.ok.injEq, Prod.mk.injEq] at this
      rw [← this.1]
      intro _
      rfl
    · have := hc.symm.trans h
      simp only [Except.ok.injEq, Prod.mk.injEq] at this
      rw [← this.1]
      intro hs
      cases hs
  · intro texts content flag hu
    refine ⟨"Conversion failed: " ++ "Error: unmatched code block start marker", ?_, rfl, rfl⟩
    simp [convertDocument, serviceBody, execPhase, envFor, engineExec, hu, unlinkBoth]

/-- A concrete environment whose temp-input write fails. -/
def demoFailEnv : ConvEnv :=
  { writeInput := Except.error "ENOSPC: no space left on device"
    exec := Except.ok { stdout := "", stderr := "" }
    execWroteOutput := false
    outputContent := "" }

/-- Witness for `convertDocument_atomic` at `demoFailEnv`. -/
theorem convertDocument_atomic_witness :
    convertDocument demoFailEnv false
      = Except.ok (mkFailureResult "ENOSPC: no space left on device",
          { inputExists := false, outputExists := false })
    ∧ ({ inputExists := false, outputExists := false } : FsState)
        = { inputExists := false, outputExists := false }
    ∧ ((mkFailureResult "ENOSPC: no space left on device").success = false →
        (mkFailureResult "ENOSPC: no space left on device").outputBase64 = none)
    ∧ (∀ texts content flag, hasUnmatchedStart false texts = true →
        ∃ e, convertDocument (envFor texts content) flag
          = Except.ok (mkFailureResult e, { inputExists := false, outputExists := false })
          ∧ (mkFailureResult e).success = false
          ∧ (mkFailureResult e).outputBase64 = none) := by
  have h : convertDocument demoFailEnv false
      = Except.ok (mkFailureResult "ENOSPC: no space left on device",
          { inputExists := false, outputExists := false }) := rfl
  have hmain := convertDocument_atomic demoFailEnv false
    (mkFailureResult "ENOSPC: no space left on device")
    { inputExists := false, outputExists := false } h
  exact ⟨h, hmain.1, hmain.2.1, hmain.2.2⟩

/-! ## Document validation and the marker-insertion stub -/

/-- A byte of the decoded document buffer. -/
abbrev Byte := Fin 256

/-- The structured validation result of `validateDocument`. -/
structure ValidationResult where
  isValid : Bool
  message : String
  issues : Option (List String)
  note : Option String
  errors : Option (List String)
deriving DecidableEq, Repr

/-- The four-byte ZIP local-file-header signature `50 4b 03 04` that the
service compares against the hex of the first four buffer bytes. -/
def zipSignatureBytes : List Byte := [80, 75, 3, 4]

/-- `validateDocument` of `converterService.ts`, on the base64-decoded
buffer: reject buffers under 100 bytes, reject buffers whose first four
bytes are not the ZIP signature, accept the rest. -/
def validateDocument (buf : List Byte) : ValidationResult :=
  if buf.length < 100 then
    { isValid := false
      message := "Invalid document: file is too small"
      issues := some ["Document appears to be corrupted or empty"]
      note := none
      errors := none }
  else if buf.take 4 ≠ zipSignatureBytes then
    { isValid := false
      message := "Invalid document: not a valid .docx file"
      issues := some ["File is not a valid Word document (ZIP format expected)"]
      note := none
      errors := none }
  else
    { isValid := true
      message := "Document structure is valid"
      issues := none
      note := some "Use ieee_convert_document to ensure full IEEE compliance with proper formatting."
      errors := none }

/-- C9: `validateDocument` is a total function of the decoded buffer, and
accepts exactly the buffers of at least 100 bytes whose first four bytes
are the ZIP signature `50 4b 03 04`; every rejection carries a message and
an issues list. -/
theorem validateDocument_spec (buf : List Byte) :
    ((validateDocument buf).isValid = true
      ↔ (100 ≤ buf.length ∧ buf.take 4 = zipSignatureBytes))
    ∧ ((validateDocument buf).isValid = false →
        (validateDocument buf).issues.isSome = true ∧ (validateDocument buf).message ≠ "") := by
  unfold validateDocument
  split_ifs with h1 h2
  · exact ⟨⟨(fun h => nomatch h), fun hc => absurd hc.1 (by omega)⟩,
      fun _ => ⟨rfl, by decide⟩⟩
  · exact ⟨⟨(fun h => nomatch h), fun hc => absurd hc.2 h2⟩,
      fun _ => ⟨rfl, by decide⟩⟩
  · exact ⟨⟨fun _ => ⟨by omega, not_not.mp h2⟩, fun _ => rfl⟩,
      (fun hs => nomatch hs)⟩

/-- A valid demonstration buffer: the ZIP signature followed by 96 zero bytes. -/
def demoBuf : List Byte := zipSignatureBytes ++ List.replicate 96 0

/-- Witness for `validateDocument_spec` at `demoBuf`. -/
theorem validateDocument_spec_witness :
    ((validateDocument demoBuf).isValid = true
      ↔ (100 ≤ demoBuf.length ∧ demoBuf.take 4 = zipSignatureBytes))
    ∧ ((validateDocument demoBuf).isValid = false →
        (validateDocument demoBuf).issues.isSome = true
        ∧ (validateDocument demoBuf).message ≠ "") :=
  validateDocument_spec demoBuf

/-- `addCodeMarkers` of `converterService.ts`: the marker-insertion feature
is unimplemented at the public interface — it ignores its arguments and
returns a fixed failure result with instructive errors. -/
def addCodeMarkers (_inputBase64 : String)
    (_codeBlockIndices : List (Nat × Nat)) : ConversionResult :=
  { success := false
    message := "This feature requires document manipulation. Please manually add markers:"
    outputBase64 := none
    errors := some
      ["Add \x27<code block start>\x27 before your code",
       "Add \x27<code block end>\x27 after your code",
       "Then use ieee_convert_document to format the document"] }

/-- C10: for every input document and every list of code-block index
ranges, `addCodeMarkers` returns success=false with the three instructive
error messages and no output — the document is never modified. -/
theorem addCodeMarkers_stub (input : String) (idx : List (Nat × Nat)) :
    addCodeMarkers input idx
      = { success := false
          message := "This feature requires document manipulation. Please manually add markers:"
          outputBase64 := none
          errors := some
            ["Add \x27<code block start>\x27 before your code",
             "Add \x27<code block end>\x27 after your code",
             "Then use ieee_convert_document to format the document"] }
    ∧ (addCodeMarkers input idx).success = false
    ∧ (addCodeMarkers input idx).outputBase64 = none :=
  ⟨rfl, rfl, rfl⟩

end WordToIEEE
